import Mathlib

/-!
# Verification of the `adder` configuration-decoding engine

This file gives a shallow embedding of the decoding/binding core of the
`adder` Go package (`adder.go`): the recursive struct binder
(`unmarshalWithPath` and its per-field loop), the environment resolver
(`getEnvValue`), the environment-string coercer (`setFieldFromString`),
the document-value coercer (`setFieldValue`) and the slice decoder
(`setSliceField`), together with theorems about override precedence,
key matching, numeric coercion, slice decoding, error reporting and the
non-transactional mutation behaviour of a decode call.

Modelling conventions:
* Go strings are Lean `String`s; `strings.ToLower` / `strings.ToUpper`
  are modelled character-wise over the ASCII range (`stringsToLower`,
  `stringsToUpper`), which matches the Go functions on ASCII input.
* The document tree (the result of `yaml.Unmarshal` into
  `map[string]any`) is the inductive `Value`; its constructors are the
  dynamic Go types the yaml parser produces and the code branches on:
  `nil`, `string`, `int`, `int64`, `uint64`, `float64`, `bool`,
  `[]any`, `map[string]any`.  Go maps are modelled as association lists
  with first-match lookup.
* `float64` document values are modelled as rationals; the Go
  conversions `int64(v)` / `uint64(v)` truncate toward zero, modelled
  by `ratTrunc`.
* The reflective target struct is the inductive `GoValue`: a target
  field carries its Go field name, its `mapstructure` tag (the empty
  string when the tag is absent, as `reflect.StructTag.Get` reports)
  and its `CanSet` status.  Machine integer widths are modelled as
  unbounded `Int` / `Nat`; the 64-bit range checks of
  `strconv.ParseInt` / `strconv.ParseUint` are kept explicitly.
* The OS environment (`os.Getenv`) is a total function returning the
  empty string for unset variables, modelled over an association list.
* In-place mutation through `reflect` is modelled by returning the
  updated target next to the optional error, mirroring Go's
  (mutate-in-place, return error) pair.
-/

set_option linter.unreachableTactic false
set_option linter.unusedTactic false

namespace AdderModel

/-- Models `strings.ToLower` (character-wise, ASCII range). -/
def stringsToLower (s : String) : String := String.mk (s.data.map Char.toLower)

/-- Models `strings.ToUpper` (character-wise, ASCII range). -/
def stringsToUpper (s : String) : String := String.mk (s.data.map Char.toUpper)

/-- A document-tree value: the dynamic types `yaml.Unmarshal` produces
into `map[string]any` and that `setFieldValue` / `setSliceField` branch
on (`nil`, `string`, `int`, `int64`, `uint64`, `float64`, `bool`,
`[]any`, `map[string]any`). -/
inductive Value where
  | vNull : Value
  | vStr : String → Value
  | vInt : Int → Value
  | vInt64 : Int → Value
  | vUint64 : Nat → Value
  | vFloat : Rat → Value
  | vBool : Bool → Value
  | vSeq : List Value → Value
  | vMap : List (String × Value) → Value

/-- Static metadata of one target struct field: the Go field name, the
`mapstructure` tag (empty string when absent) and `CanSet`. -/
structure FieldInfo where
  name : String
  tag : String
  canSet : Bool
deriving DecidableEq

/-- The element kind of a slice-typed target field.  `setSliceField`
handles `reflect.String` and `reflect.Int`/`reflect.Int64` elements;
`eUint` and `eBool` stand for the element kinds its switch does not
cover. -/
inductive ElemKind where
  | eString : ElemKind
  | eInt : ElemKind
  | eUint : ElemKind
  | eBool : ElemKind
deriving DecidableEq

/-- A target value reachable through reflection: a string, signed
integer, unsigned integer or boolean field, a slice field (with its
element kind), or a nested struct given by its field list. -/
inductive GoValue where
  | gString : String → GoValue
  | gInt : Int → GoValue
  | gUint : Nat → GoValue
  | gBool : Bool → GoValue
  | gSlice : ElemKind → List GoValue → GoValue
  | gStruct : List (FieldInfo × GoValue) → GoValue

/-- The OS environment: a list of (name, value) pairs. -/
abbrev Env := List (String × String)

/-- Models `os.Getenv`: the variable's value, or the empty string when
it is unset (Go does not distinguish unset from set-but-empty here). -/
def getenv (env : Env) (name : String) : String :=
  match env.lookup name with
  | some v => v
  | none => ""

/-- The decode-relevant state of an `Adder` instance: the
`strings.Replacer` (modelled as an abstract string transform), the
`autoEnv` flag and the explicit `envBindings` table. -/
structure AdderCfg where
  envReplacer : Option (String → String)
  autoEnv : Bool
  envBindings : List (String × String)

/-- Models `New()`: empty bindings, automatic env disabled. -/
def New : AdderCfg := ⟨none, false, []⟩

/-- Models `(*Adder).SetEnvKeyReplacer`. -/
def SetEnvKeyReplacer (a : AdderCfg) (r : String → String) : AdderCfg :=
  { a with envReplacer := some r }

/-- Models `(*Adder).AutomaticEnv`. -/
def AutomaticEnv (a : AdderCfg) : AdderCfg :=
  { a with autoEnv := true }

/-- Models `(*Adder).BindEnv` (which always returns a nil error): the
key is lowercased and stored; prepending with first-match lookup gives
the Go map's last-write-wins overwrite semantics. -/
def BindEnv (a : AdderCfg) (key envVar : String) : AdderCfg :=
  { a with envBindings := (stringsToLower key, envVar) :: a.envBindings }

/-- The nil-check on the replacer inside `getEnvValue`:
`if a.envReplacer != nil { envKey = a.envReplacer.Replace(envKey) }`. -/
def applyReplacer (a : AdderCfg) (s : String) : String :=
  match a.envReplacer with
  | some r => r s
  | none => s

/-- Models `(*Adder).getEnvValue`: explicit bindings are consulted
first (on the lowercased key); otherwise, when automatic env is on, the
variable named by the replaced upper-cased key is read; otherwise the
empty string is returned. -/
def getEnvValue (a : AdderCfg) (env : Env) (key : String) : String :=
  let lowerKey := stringsToLower key
  match a.envBindings.lookup lowerKey with
  | some envVar => getenv env envVar
  | none =>
    if a.autoEnv then
      getenv env (applyReplacer a (stringsToUpper key))
    else ""

/-- The digits of a numeral, most significant first, as a `Nat`. -/
def digitsVal (cs : List Char) : Nat :=
  cs.foldl (fun acc c => acc * 10 + (c.toNat - 48)) 0

/-- Models `strconv.ParseUint(s, 10, 64)`: a non-empty all-digit string
(no sign prefix is permitted) whose value fits in 64 bits; `none` is
the parse error. -/
def parseUintGo (s : String) : Option Nat :=
  let cs := s.data
  if !cs.isEmpty && cs.all Char.isDigit then
    let n := digitsVal cs
    if n < 2 ^ 64 then some n else none
  else none

/-- Models `strconv.ParseInt(s, 10, 64)`: an optional `+`/`-` sign
followed by a non-empty all-digit string, with the signed value in the
64-bit range; `none` is the parse error. -/
def parseIntGo (s : String) : Option Int :=
  match s.data with
  | [] => none
  | c :: rest =>
    let neg := c = '-'
    let digits := if c = '-' ∨ c = '+' then rest else c :: rest
    if !digits.isEmpty && digits.all Char.isDigit then
      let n := digitsVal digits
      if neg then
        if n ≤ 2 ^ 63 then some (-(n : Int)) else none
      else
        if n < 2 ^ 63 then some ((n : Int)) else none
    else none

/-- The Go conversions `int64(v)` / `uint64(v)` on a `float64` discard
the fractional part, truncating toward zero; on rationals this is
`Int.tdiv` of numerator by denominator. -/
def ratTrunc (q : Rat) : Int := q.num.tdiv (q.den : Int)

/-- The errors a decode call can return: the two invalid-target errors
of `unmarshalWithPath` and a `strconv` parse failure (carrying the
offending input) from `setFieldFromString`. -/
inductive GoErr where
  | errNilOrNotPtr : GoErr
  | errNotStruct : GoErr
  | numError : String → GoErr
deriving DecidableEq

/-- Models `setFieldFromString`: sets a string field verbatim, parses
into int/uint fields via `strconv` (propagating the error), maps
`"true"`/`"1"` to `true` and everything else to `false` for bool
fields, and does nothing for field kinds outside its switch (struct,
slice). -/
def setFieldFromString (field : GoValue) (value : String) : GoValue × Option GoErr :=
  match field with
  | .gString _ => (.gString value, none)
  | .gInt _ =>
    match parseIntGo value with
    | some i => (.gInt i, none)
    | none => (field, some (.numError value))
  | .gUint _ =>
    match parseUintGo value with
    | some u => (.gUint u, none)
    | none => (field, some (.numError value))
  | .gBool _ => (.gBool (value == "true" || value == "1"), none)
  | _ => (field, none)

/-- The zero value of a slice element type (`reflect.MakeSlice` fills
the new slice with these). -/
def zeroElem : ElemKind → GoValue
  | .eString => .gString ""
  | .eInt => .gInt 0
  | .eUint => .gUint 0
  | .eBool => .gBool false

/-- One element conversion of `setSliceField`'s loop: a `string` item
into a string element, an `int` or `float64` item into an int element
(its inner switch covers exactly those two dynamic types), and the
zero value in every other case. -/
def convElem (k : ElemKind) (item : Value) : GoValue :=
  match k with
  | .eString =>
    match item with
    | .vStr s => .gString s
    | _ => .gString ""
  | .eInt =>
    match item with
    | .vInt n => .gInt n
    | .vFloat q => .gInt (ratTrunc q)
    | _ => .gInt 0
  | .eUint => .gUint 0
  | .eBool => .gBool false

/-- Models `setSliceField`: a non-`[]any` source returns with the field
untouched; a sequence source replaces the field by a freshly made slice
of the same length whose elements are converted independently by
`convElem`.  It never returns an error. -/
def setSliceField (k : ElemKind) (xs : List GoValue) (value : Value) : GoValue × Option GoErr :=
  match value with
  | .vSeq items => (.gSlice k (items.map (convElem k)), none)
  | _ => (.gSlice k xs, none)

mutual

/-- The field loop of `unmarshalWithPath` (source lines 185–221): the
fields are processed in declaration order; the first per-field error
aborts the loop, leaving the remaining fields untouched. -/
def unmarshalFields (a : AdderCfg) (env : Env) (data : List (String × Value))
    (pre : String) (l : List (FieldInfo × GoValue)) :
    List (FieldInfo × GoValue) × Option GoErr :=
  match l with
  | [] => ([], none)
  | f :: fs =>
    let r := processField a env data pre f
    match r.2 with
    | some e => (r.1 :: fs, some e)
    | none =>
      let rest := unmarshalFields a env data pre fs
      (r.1 :: rest.1, rest.2)
termination_by sizeOf l
decreasing_by all_goals (simp_wf; try omega)

/-- One iteration of the field loop: skip fields that cannot be set;
compute the external name (tag, else lowercased field name) and the
full dotted key; when the resolved environment value is non-empty, set
the field from that string (propagating any parse error) without
consulting the document; otherwise fall back to the document value for
the external name, skipping the field when the key is absent. -/
def processField (a : AdderCfg) (env : Env) (data : List (String × Value))
    (pre : String) (f : FieldInfo × GoValue) :
    (FieldInfo × GoValue) × Option GoErr :=
  match f with
  | (info, fv) =>
    if info.canSet then
      let fieldName := if info.tag ≠ "" then info.tag else stringsToLower info.name
      let fullKey := if pre = "" then fieldName else pre ++ "." ++ fieldName
      let envVal := getEnvValue a env fullKey
      if envVal ≠ "" then
        let r := setFieldFromString fv envVal
        ((info, r.1), r.2)
      else
        match data.lookup fieldName with
        | none => ((info, fv), none)
        | some configVal =>
          let r := setFieldValue a env fv configVal fullKey
          ((info, r.1), r.2)
    else
      ((info, fv), none)
termination_by sizeOf f
decreasing_by all_goals (simp_wf; try omega)

/-- Models `setFieldValue`: a nil source leaves the field untouched; a
mapping source recurses into a struct field (the Go code re-enters
`unmarshalWithPath` on `field.Addr()`, a non-nil pointer to struct, so
its guards pass trivially and the field loop runs); string/int/uint/
bool fields accept exactly the dynamic source types of the Go type
switches (with the `v >= 0` guards of the uint case, negative values
being skipped silently); slice fields delegate to `setSliceField`; any
other (field kind, source type) pair is skipped without error. -/
def setFieldValue (a : AdderCfg) (env : Env) (field : GoValue) (value : Value)
    (keyPath : String) : GoValue × Option GoErr :=
  match field, value with
  | f, .vNull => (f, none)
  | .gStruct fs, .vMap m =>
    let r := unmarshalFields a env m keyPath fs
    (.gStruct r.1, r.2)
  | .gString _, .vStr s => (.gString s, none)
  | .gInt _, .vInt n => (.gInt n, none)
  | .gInt _, .vInt64 n => (.gInt n, none)
  | .gInt _, .vFloat q => (.gInt (ratTrunc q), none)
  | .gUint u, .vInt n => if 0 ≤ n then (.gUint n.toNat, none) else (.gUint u, none)
  | .gUint u, .vInt64 n => if 0 ≤ n then (.gUint n.toNat, none) else (.gUint u, none)
  | .gUint _, .vUint64 n => (.gUint n, none)
  | .gUint u, .vFloat q => if 0 ≤ q then (.gUint (ratTrunc q).toNat, none) else (.gUint u, none)
  | .gBool _, .vBool b => (.gBool b, none)
  | .gSlice k xs, v => setSliceField k xs v
  | f, _ => (f, none)
termination_by sizeOf field
decreasing_by all_goals (simp_wf; try omega)

end

/-- Models `strings.NewReplacer(".", "_").Replace`: substitute every
dot by an underscore (used by the examples and tests of the package to
map dotted keys to environment-variable names). -/
def dotUnderscoreReplacer (s : String) : String :=
  String.mk (s.data.map (fun c => if c = '.' then '_' else c))

/-- The reference handed to a decode call: Go's `nil` pointer, a
pointer to a value, or a non-pointer value. -/
inductive Target where
  | nilPtr : Target
  | ptr : GoValue → Target
  | nonPtr : GoValue → Target

/-- Whether a target value is a struct (`reflect.Kind() == Struct`). -/
def isStructVal : GoValue → Bool
  | .gStruct _ => true
  | _ => false

/-- Models `(*Adder).unmarshalWithPath`: a nil or non-pointer target is
an immediate error, as is a pointer to a non-struct; otherwise the
field loop runs on the pointed-to struct. -/
def unmarshalWithPath (a : AdderCfg) (env : Env) (data : List (String × Value))
    (t : Target) (pre : String) : Target × Option GoErr :=
  match t with
  | .nilPtr => (.nilPtr, some .errNilOrNotPtr)
  | .nonPtr g => (.nonPtr g, some .errNilOrNotPtr)
  | .ptr g =>
    match g with
    | .gStruct fs =>
      let r := unmarshalFields a env data pre fs
      (.ptr (.gStruct r.1), r.2)
    | _ => (.ptr g, some .errNotStruct)

/-- Models `(*Adder).Unmarshal`: decode the loaded configuration values
into the target, starting with the empty path. -/
def Unmarshal (a : AdderCfg) (env : Env) (configValues : List (String × Value))
    (t : Target) : Target × Option GoErr :=
  unmarshalWithPath a env configValues t ""

end AdderModel

namespace AdderModel

/-! ## General lemmas about the resolver and the field step -/

/-- When an explicit binding exists for the lowercased key, the
resolver returns the bound variable's environment value. -/
theorem getEnvValue_bound (a : AdderCfg) (env : Env) (key ev : String)
    (h : a.envBindings.lookup (stringsToLower key) = some ev) :
    getEnvValue a env key = getenv env ev := by
  rw [getEnvValue]
  simp only [h]

/-- Without an explicit binding and with automatic env on, the resolver
reads the variable derived by upper-casing and applying the replacer. -/
theorem getEnvValue_unbound_auto (a : AdderCfg) (env : Env) (key : String)
    (h : a.envBindings.lookup (stringsToLower key) = none) (hauto : a.autoEnv = true) :
    getEnvValue a env key = getenv env (applyReplacer a (stringsToUpper key)) := by
  rw [getEnvValue]
  simp only [h, hauto, if_true]

/-- Without an explicit binding and with automatic env off, the
resolver reports nothing. -/
theorem getEnvValue_unbound_noauto (a : AdderCfg) (env : Env) (key : String)
    (h : a.envBindings.lookup (stringsToLower key) = none) (hauto : a.autoEnv = false) :
    getEnvValue a env key = "" := by
  rw [getEnvValue]
  simp only [h, hauto]
  simp

/-- The per-field step, unfolded for a settable field: the external
name and dotted key are computed, then the environment value (when
non-empty) or the document value (when the key is present) is decoded
into the field. -/
theorem processField_unfold (a : AdderCfg) (env : Env) (data : List (String × Value))
    (pre : String) (info : FieldInfo) (fv : GoValue) (fieldName fullKey : String)
    (hset : info.canSet = true)
    (hfn : fieldName = (if info.tag ≠ "" then info.tag else stringsToLower info.name))
    (hfk : fullKey = (if pre = "" then fieldName else pre ++ "." ++ fieldName)) :
    processField a env data pre (info, fv) =
      if getEnvValue a env fullKey ≠ "" then
        ((info, (setFieldFromString fv (getEnvValue a env fullKey)).1),
         (setFieldFromString fv (getEnvValue a env fullKey)).2)
      else
        match data.lookup fieldName with
        | none => ((info, fv), none)
        | some cv =>
          ((info, (setFieldValue a env fv cv fullKey).1),
           (setFieldValue a env fv cv fullKey).2) := by
  subst hfn hfk
  rw [processField]
  simp only [hset, if_true]

/-! ## The claims -/

/-- C1: three-tier override precedence.  For a settable field with
external name `fieldName` and dotted path `fullKey`: (1) when an
explicit binding exists and its environment variable is non-empty, the
field is set from that string, regardless of the automatic-env
candidate and of the document; (2) when no binding exists, automatic
env is on and the derived variable is non-empty, the field is set from
that string, regardless of the document; (3) when the resolver returns
the empty string, the document value is used when the key is present,
and the field is untouched otherwise. -/
theorem C1_three_tier_precedence
    (a : AdderCfg) (env : Env) (data : List (String × Value)) (pre : String)
    (info : FieldInfo) (fv : GoValue) (fieldName fullKey : String)
    (hset : info.canSet = true)
    (hfn : fieldName = (if info.tag ≠ "" then info.tag else stringsToLower info.name))
    (hfk : fullKey = (if pre = "" then fieldName else pre ++ "." ++ fieldName)) :
    (∀ ev, a.envBindings.lookup (stringsToLower fullKey) = some ev → getenv env ev ≠ "" →
      processField a env data pre (info, fv) =
        ((info, (setFieldFromString fv (getenv env ev)).1),
         (setFieldFromString fv (getenv env ev)).2)) ∧
    (a.envBindings.lookup (stringsToLower fullKey) = none → a.autoEnv = true →
      getenv env (applyReplacer a (stringsToUpper fullKey)) ≠ "" →
      processField a env data pre (info, fv) =
        ((info, (setFieldFromString fv (getenv env (applyReplacer a (stringsToUpper fullKey)))).1),
         (setFieldFromString fv (getenv env (applyReplacer a (stringsToUpper fullKey)))).2)) ∧
    (getEnvValue a env fullKey = "" →
      (∀ cv, data.lookup fieldName = some cv →
        processField a env data pre (info, fv) =
          ((info, (setFieldValue a env fv cv fullKey).1),
           (setFieldValue a env fv cv fullKey).2)) ∧
      (data.lookup fieldName = none →
        processField a env data pre (info, fv) = ((info, fv), none))) := by
  have hpf := processField_unfold a env data pre info fv fieldName fullKey hset hfn hfk
  refine ⟨?_, ?_, ?_⟩
  · intro ev hbind hne
    rw [hpf, getEnvValue_bound a env fullKey ev hbind, if_pos hne]
  · intro hbind hauto hne
    rw [hpf, getEnvValue_unbound_auto a env fullKey hbind hauto, if_pos hne]
  · intro hemp
    rw [hpf, hemp]
    constructor
    · intro cv hcv
      simp [hcv]
    · intro hnone
      simp [hnone]

/-- Witness for C1: the three tiers at concrete inputs.  Tier 1: with
binding `db.url → DATABASE_URL`, both an automatic candidate and a
document value present, the explicitly bound value wins.  Tier 2: with
no binding, automatic env and the dot-to-underscore replacer,
`HTTP_PORT=9091` beats the document's 8080.  Tier 3: with no
environment data at all, the document value is used, and an absent key
leaves the field untouched. -/
theorem C1_three_tier_precedence_witness :
    (processField ⟨some dotUnderscoreReplacer, true, [("db.url", "DATABASE_URL")]⟩
        [("DATABASE_URL", "postgres://from-env"), ("DB_URL", "postgres://from-auto")]
        [("url", .vStr "postgres://from-config")] "db"
        (⟨"Url", "", true⟩, .gString "") =
      ((⟨"Url", "", true⟩, .gString "postgres://from-env"), none)) ∧
    (processField ⟨some dotUnderscoreReplacer, true, []⟩
        [("HTTP_PORT", "9091")] [("port", .vInt 8080)] "http"
        (⟨"Port", "", true⟩, .gUint 0) =
      ((⟨"Port", "", true⟩, .gUint 9091), none)) ∧
    (processField ⟨none, false, []⟩ [] [("port", .vInt 8080)] "http"
        (⟨"Port", "", true⟩, .gUint 0) =
      ((⟨"Port", "", true⟩, .gUint 8080), none)) ∧
    (processField ⟨none, false, []⟩ [] [] "http"
        (⟨"Port", "", true⟩, .gUint 0) =
      ((⟨"Port", "", true⟩, .gUint 0), none)) := by
  refine ⟨?_, ?_, ?_, ?_⟩
  · have h := (C1_three_tier_precedence
      ⟨some dotUnderscoreReplacer, true, [("db.url", "DATABASE_URL")]⟩
      [("DATABASE_URL", "postgres://from-env"), ("DB_URL", "postgres://from-auto")]
      [("url", .vStr "postgres://from-config")] "db"
      ⟨"Url", "", true⟩ (.gString "") "url" "db.url"
      (by decide) (by decide) (by decide)).1 "DATABASE_URL" (by decide) (by decide)
    rw [h]
    simp [setFieldFromString, getenv]
  · have h := ((C1_three_tier_precedence
      ⟨some dotUnderscoreReplacer, true, []⟩ [("HTTP_PORT", "9091")]
      [("port", .vInt 8080)] "http"
      ⟨"Port", "", true⟩ (.gUint 0) "port" "http.port"
      (by decide) (by decide) (by decide)).2.1) (by decide) (by decide) (by decide)
    rw [h]
    simp [setFieldFromString, getenv, applyReplacer, stringsToUpper, dotUnderscoreReplacer,
      parseUintGo, digitsVal]
  · have h := (((C1_three_tier_precedence
      ⟨none, false, []⟩ [] [("port", .vInt 8080)] "http"
      ⟨"Port", "", true⟩ (.gUint 0) "port" "http.port"
      (by decide) (by decide) (by decide)).2.2) (by decide)).1 (.vInt 8080) (by rfl)
    rw [h]
    rw [setFieldValue]
    simp
  · exact (((C1_three_tier_precedence
      ⟨none, false, []⟩ [] [] "http"
      ⟨"Port", "", true⟩ (.gUint 0) "port" "http.port"
      (by decide) (by decide) (by decide)).2.2) (by decide)).2 (by rfl)

end AdderModel

namespace AdderModel

/-- C2: deep environment-only binding does NOT happen in the code.
With an empty document, the explicit binding `api.apikey → MY_API_KEY`
and `MY_API_KEY=secret` in the environment, decoding into a target
with a nested `Api.ApiKey` field leaves the whole target unchanged
(`Api.ApiKey` stays empty): when a struct-typed field's external name
is absent from the document mapping, the loop skips the field with
`continue` instead of recursing with an empty mapping, so the nested
binding is never consulted. -/
theorem C2_no_deep_env_binding_recursion :
    Unmarshal ⟨none, false, [("api.apikey", "MY_API_KEY")]⟩ [("MY_API_KEY", "secret")] []
      (.ptr (.gStruct [(⟨"Api", "", true⟩, .gStruct [(⟨"ApiKey", "", true⟩, .gString "")])])) =
    (.ptr (.gStruct [(⟨"Api", "", true⟩, .gStruct [(⟨"ApiKey", "", true⟩, .gString "")])]),
     none) := by
  simp [Unmarshal, unmarshalWithPath, unmarshalFields, processField, setFieldValue,
    setFieldFromString, getEnvValue, getenv, applyReplacer, stringsToLower, stringsToUpper,
    List.lookup]

/-- C3: document keys are NOT lowercased.  The document key `"baseUrl"`
does not bind to the field `BaseURL` (whose computed external name is
`"baseurl"`): the decode leaves the field empty and reports no error,
while the all-lowercase document key `"baseurl"` does bind.  No
recursive key-folding of the parsed tree exists anywhere in the code
(`ReadInConfig` stores the parsed yaml mapping verbatim). -/
theorem C3_document_keys_matched_case_sensitively :
    Unmarshal ⟨none, false, []⟩ [] [("baseUrl", .vStr "https://example.com")]
      (.ptr (.gStruct [(⟨"BaseURL", "", true⟩, .gString "")])) =
    (.ptr (.gStruct [(⟨"BaseURL", "", true⟩, .gString "")]), none) ∧
    Unmarshal ⟨none, false, []⟩ [] [("baseurl", .vStr "https://example.com")]
      (.ptr (.gStruct [(⟨"BaseURL", "", true⟩, .gString "")])) =
    (.ptr (.gStruct [(⟨"BaseURL", "", true⟩, .gString "https://example.com")]), none) := by
  constructor <;>
  simp [Unmarshal, unmarshalWithPath, unmarshalFields, processField, setFieldValue,
    setFieldFromString, getEnvValue, getenv, applyReplacer, stringsToLower, stringsToUpper,
    List.lookup]

/-- C4 counterexample: an explicit binding whose environment variable
is set to the empty string does NOT short-circuit the fallback to the
document value.  With binding `db.url → DATABASE_URL`, the environment
entry `DATABASE_URL=` (set but empty) and the document value
`postgres://from-config`, the decoded field carries the document value
— refuting the claim that the document value is not used. -/
theorem C4_counterexample_empty_binding_falls_back :
    Unmarshal ⟨none, false, [("db.url", "DATABASE_URL")]⟩ [("DATABASE_URL", "")]
      [("db", .vMap [("url", .vStr "postgres://from-config")])]
      (.ptr (.gStruct [(⟨"Db", "", true⟩, .gStruct [(⟨"Url", "", true⟩, .gString "")])])) =
    (.ptr (.gStruct [(⟨"Db", "", true⟩,
        .gStruct [(⟨"Url", "", true⟩, .gString "postgres://from-config")])]), none) := by
  simp [Unmarshal, unmarshalWithPath, unmarshalFields, processField, setFieldValue,
    setFieldFromString, getEnvValue, getenv, applyReplacer, stringsToLower, stringsToUpper,
    List.lookup]

/-- C4 (amended): for a settable field whose dotted path has an
explicit binding and whose bound environment variable maps to the empty
string (set-but-empty and unset are indistinguishable through
`os.Getenv`), the resolver returns the empty string, which the decoder
treats exactly like "not found": the document value IS used when the
key is present, and the field is left untouched otherwise. -/
theorem C4_empty_explicit_binding_uses_document
    (a : AdderCfg) (env : Env) (data : List (String × Value)) (pre : String)
    (info : FieldInfo) (fv : GoValue) (fieldName fullKey ev : String)
    (hset : info.canSet = true)
    (hfn : fieldName = (if info.tag ≠ "" then info.tag else stringsToLower info.name))
    (hfk : fullKey = (if pre = "" then fieldName else pre ++ "." ++ fieldName))
    (hbind : a.envBindings.lookup (stringsToLower fullKey) = some ev)
    (hemp : getenv env ev = "") :
    getEnvValue a env fullKey = "" ∧
    (∀ cv, data.lookup fieldName = some cv →
      processField a env data pre (info, fv) =
        ((info, (setFieldValue a env fv cv fullKey).1),
         (setFieldValue a env fv cv fullKey).2)) ∧
    (data.lookup fieldName = none →
      processField a env data pre (info, fv) = ((info, fv), none)) := by
  have hge : getEnvValue a env fullKey = "" := by
    rw [getEnvValue_bound a env fullKey ev hbind, hemp]
  have hpf := processField_unfold a env data pre info fv fieldName fullKey hset hfn hfk
  refine ⟨hge, ?_, ?_⟩
  · intro cv hcv
    rw [hpf, hge]
    simp [hcv]
  · intro hnone
    rw [hpf, hge]
    simp [hnone]

/-- Witness for the amended C4, at the inputs of the counterexample:
binding `db.url → DATABASE_URL` with `DATABASE_URL` set to the empty
string resolves to the empty string, and the per-field step takes the
document value. -/
theorem C4_empty_explicit_binding_uses_document_witness :
    getEnvValue ⟨none, false, [("db.url", "DATABASE_URL")]⟩ [("DATABASE_URL", "")] "db.url" = "" ∧
    processField ⟨none, false, [("db.url", "DATABASE_URL")]⟩ [("DATABASE_URL", "")]
        [("url", .vStr "postgres://from-config")] "db" (⟨"Url", "", true⟩, .gString "") =
      ((⟨"Url", "", true⟩, .gString "postgres://from-config"), none) := by
  have h := C4_empty_explicit_binding_uses_document
    ⟨none, false, [("db.url", "DATABASE_URL")]⟩ [("DATABASE_URL", "")]
    [("url", .vStr "postgres://from-config")] "db"
    ⟨"Url", "", true⟩ (.gString "") "url" "db.url" "DATABASE_URL"
    (by decide) (by decide) (by decide) (by decide) (by decide)
  refine ⟨h.1, ?_⟩
  have h2 := h.2.1 (.vStr "postgres://from-config") (by rfl)
  rw [h2]
  rw [setFieldValue]

end AdderModel

namespace AdderModel

/-- C5: environment-string numeric coercion.  For a settable int or
uint field whose resolved environment value is a non-empty string `s`:
a failed base-10 parse (signed for int, unsigned for uint) makes the
per-field step return a parse error, which the field loop propagates
to the caller immediately; a successful parse sets the parsed value.
The unsigned parse rejects any string starting with a minus sign. -/
theorem C5_env_string_numeric_parse
    (a : AdderCfg) (env : Env) (data : List (String × Value)) (pre : String)
    (info : FieldInfo) (fieldName fullKey s : String)
    (hset : info.canSet = true)
    (hfn : fieldName = (if info.tag ≠ "" then info.tag else stringsToLower info.name))
    (hfk : fullKey = (if pre = "" then fieldName else pre ++ "." ++ fieldName))
    (hs : getEnvValue a env fullKey = s) (hne : s ≠ "") :
    (∀ u0 : Nat,
      (parseUintGo s = none →
        processField a env data pre (info, .gUint u0) =
          ((info, .gUint u0), some (.numError s)) ∧
        ∀ fs, unmarshalFields a env data pre ((info, .gUint u0) :: fs) =
          ((info, .gUint u0) :: fs, some (.numError s))) ∧
      (∀ n, parseUintGo s = some n →
        processField a env data pre (info, .gUint u0) = ((info, .gUint n), none))) ∧
    (∀ i0 : Int,
      (parseIntGo s = none →
        processField a env data pre (info, .gInt i0) =
          ((info, .gInt i0), some (.numError s)) ∧
        ∀ fs, unmarshalFields a env data pre ((info, .gInt i0) :: fs) =
          ((info, .gInt i0) :: fs, some (.numError s))) ∧
      (∀ n, parseIntGo s = some n →
        processField a env data pre (info, .gInt i0) = ((info, .gInt n), none))) ∧
    (∀ (t : String) (cs : List Char), t.data = '-' :: cs → parseUintGo t = none) := by
  refine ⟨?_, ?_, ?_⟩
  · intro u0
    have hpf := processField_unfold a env data pre info (.gUint u0) fieldName fullKey hset hfn hfk
    rw [hs] at hpf
    constructor
    · intro hparse
      have hp : processField a env data pre (info, .gUint u0) =
          ((info, .gUint u0), some (.numError s)) := by
        rw [hpf, if_pos hne]
        simp [setFieldFromString, hparse]
      refine ⟨hp, ?_⟩
      intro fs
      rw [unmarshalFields]
      simp [hp]
    · intro n hparse
      rw [hpf, if_pos hne]
      simp [setFieldFromString, hparse]
  · intro i0
    have hpf := processField_unfold a env data pre info (.gInt i0) fieldName fullKey hset hfn hfk
    rw [hs] at hpf
    constructor
    · intro hparse
      have hp : processField a env data pre (info, .gInt i0) =
          ((info, .gInt i0), some (.numError s)) := by
        rw [hpf, if_pos hne]
        simp [setFieldFromString, hparse]
      refine ⟨hp, ?_⟩
      intro fs
      rw [unmarshalFields]
      simp [hp]
    · intro n hparse
      rw [hpf, if_pos hne]
      simp [setFieldFromString, hparse]
  · intro t cs hcs
    rw [parseUintGo]
    simp [hcs]


/-- Witness for C5: under automatic env with the dot-to-underscore
replacer, `HTTP_PORT=not-a-number` into a uint `Port` field yields a
parse error (surfaced by the field loop), `HTTP_PORT=9091` yields 9091,
and the unsigned parse rejects `"-5"`. -/
theorem C5_env_string_numeric_parse_witness :
    (processField ⟨some dotUnderscoreReplacer, true, []⟩ [("HTTP_PORT", "not-a-number")]
        [] "http" (⟨"Port", "", true⟩, .gUint 0) =
      ((⟨"Port", "", true⟩, .gUint 0), some (.numError "not-a-number"))) ∧
    (unmarshalFields ⟨some dotUnderscoreReplacer, true, []⟩ [("HTTP_PORT", "not-a-number")]
        [] "http" [(⟨"Port", "", true⟩, .gUint 0)] =
      ([(⟨"Port", "", true⟩, .gUint 0)], some (.numError "not-a-number"))) ∧
    (processField ⟨some dotUnderscoreReplacer, true, []⟩ [("HTTP_PORT", "9091")]
        [] "http" (⟨"Port", "", true⟩, .gUint 0) =
      ((⟨"Port", "", true⟩, .gUint 9091), none)) ∧
    parseUintGo "-5" = none := by
  have herr := ((C5_env_string_numeric_parse
    ⟨some dotUnderscoreReplacer, true, []⟩ [("HTTP_PORT", "not-a-number")] [] "http"
    ⟨"Port", "", true⟩ "port" "http.port" "not-a-number"
    (by decide) (by decide) (by decide) (by decide) (by decide)).1 0).1 (by decide)
  have hok := ((C5_env_string_numeric_parse
    ⟨some dotUnderscoreReplacer, true, []⟩ [("HTTP_PORT", "9091")] [] "http"
    ⟨"Port", "", true⟩ "port" "http.port" "9091"
    (by decide) (by decide) (by decide) (by decide) (by decide)).1 0).2 9091 (by decide)
  have hneg := (C5_env_string_numeric_parse
    ⟨some dotUnderscoreReplacer, true, []⟩ [("HTTP_PORT", "9091")] [] "http"
    ⟨"Port", "", true⟩ "port" "http.port" "9091"
    (by decide) (by decide) (by decide) (by decide) (by decide)).2.2 "-5" ['5'] (by decide)
  exact ⟨herr.1, herr.2 [], hok, hneg⟩

end AdderModel

namespace AdderModel

/-- On a nonnegative rational, truncation agrees with the floor. -/
theorem ratTrunc_nonneg_eq_floor (q : Rat) (h : 0 ≤ q) : ratTrunc q = ⌊q⌋ := by
  rw [ratTrunc, Rat.floor_def]
  exact Int.tdiv_eq_ediv (Rat.num_nonneg.mpr h) (by positivity)

/-- Truncation commutes with negation (it is symmetric about zero). -/
theorem ratTrunc_neg (q : Rat) : ratTrunc (-q) = -(ratTrunc q) := by
  rw [ratTrunc, ratTrunc, Rat.neg_num, Rat.neg_den, Int.neg_tdiv]

/-- On a nonpositive rational, truncation agrees with the ceiling:
together with `ratTrunc_nonneg_eq_floor` this says `ratTrunc` rounds
toward zero. -/
theorem ratTrunc_nonpos_eq_ceil (q : Rat) (h : q ≤ 0) : ratTrunc q = ⌈q⌉ := by
  have h2 : ratTrunc q = -(ratTrunc (-q)) := by rw [ratTrunc_neg, neg_neg]
  rw [h2, ratTrunc_nonneg_eq_floor (-q) (by linarith), Int.floor_neg, neg_neg]

/-- C6: document-native numeric coercion is silently permissive.  A
negative document-native number (`int`, `int64` or negative `float64`)
into an unsigned field leaves the field at its prior value with no
error; a document-native `float64` into an int field is truncated
toward zero (floor on nonnegatives, ceiling on nonpositives), as is a
nonnegative `float64` into a uint field — in contrast with the
environment-string path, where an unparsable string is a hard error. -/
theorem C6_doc_native_numeric_permissive (a : AdderCfg) (env : Env) (key : String) :
    (∀ (u0 : Nat) (n : Int), n < 0 →
      setFieldValue a env (.gUint u0) (.vInt n) key = (.gUint u0, none) ∧
      setFieldValue a env (.gUint u0) (.vInt64 n) key = (.gUint u0, none)) ∧
    (∀ (u0 : Nat) (q : Rat), q < 0 →
      setFieldValue a env (.gUint u0) (.vFloat q) key = (.gUint u0, none)) ∧
    (∀ (i0 : Int) (q : Rat),
      setFieldValue a env (.gInt i0) (.vFloat q) key = (.gInt (ratTrunc q), none)) ∧
    (∀ (u0 : Nat) (q : Rat), 0 ≤ q →
      setFieldValue a env (.gUint u0) (.vFloat q) key = (.gUint (ratTrunc q).toNat, none)) ∧
    (∀ q : Rat, (0 ≤ q → ratTrunc q = ⌊q⌋) ∧ (q ≤ 0 → ratTrunc q = ⌈q⌉)) ∧
    (∀ (u0 : Nat) (s : String), parseUintGo s = none →
      setFieldFromString (.gUint u0) s = (.gUint u0, some (.numError s))) := by
  refine ⟨?_, ?_, ?_, ?_, ?_, ?_⟩
  · intro u0 n hn
    constructor <;> (rw [setFieldValue]; simp [not_le.mpr hn])
  · intro u0 q hq
    rw [setFieldValue]
    simp [not_le.mpr hq]
  · intro i0 q
    rw [setFieldValue]
  · intro u0 q hq
    rw [setFieldValue]
    simp [hq]
  · intro q
    exact ⟨ratTrunc_nonneg_eq_floor q, ratTrunc_nonpos_eq_ceil q⟩
  · intro u0 s hparse
    simp [setFieldFromString, hparse]

/-- Witness for C6: `-3` into a uint field is skipped silently; the
float `7/2` into an int field gives `3` and `-7/2` gives `-3`
(truncation toward zero); `-7/2` into a uint field is skipped; and the
environment-string `"x"` into a uint field is a hard error. -/
theorem C6_doc_native_numeric_permissive_witness :
    (setFieldValue ⟨none, false, []⟩ [] (.gUint 5) (.vInt (-3)) "k" = (.gUint 5, none)) ∧
    (setFieldValue ⟨none, false, []⟩ [] (.gInt 0)
      (.vFloat ⟨7, 2, by decide, by decide⟩) "k" = (.gInt 3, none)) ∧
    (setFieldValue ⟨none, false, []⟩ [] (.gInt 0)
      (.vFloat ⟨-7, 2, by decide, by decide⟩) "k" = (.gInt (-3), none)) ∧
    (setFieldValue ⟨none, false, []⟩ [] (.gUint 5)
      (.vFloat ⟨-7, 2, by decide, by decide⟩) "k" = (.gUint 5, none)) ∧
    (setFieldFromString (.gUint 5) "x" = (.gUint 5, some (.numError "x"))) := by
  have h := C6_doc_native_numeric_permissive ⟨none, false, []⟩ [] "k"
  refine ⟨(h.1 5 (-3) (by decide)).1, ?_, ?_, ?_, ?_⟩
  · rw [h.2.2.1 0 ⟨7, 2, by decide, by decide⟩]
    have : ratTrunc ⟨7, 2, by decide, by decide⟩ = 3 := by decide
    rw [this]
  · rw [h.2.2.1 0 ⟨-7, 2, by decide, by decide⟩]
    have : ratTrunc ⟨-7, 2, by decide, by decide⟩ = -3 := by decide
    rw [this]
  · exact h.2.1 5 ⟨-7, 2, by decide, by decide⟩ (by decide)
  · exact h.2.2.2.2.2 5 "x" (by decide)

end AdderModel

namespace AdderModel

/-- C7: sequence decoding.  A sequence source replaces a slice field by
a slice of the same length whose i-th element is the independent
conversion of the i-th source element (order preserved), with no
error; the per-element conversion agrees with the scalar document
rules on the supported element kinds (string from a string item, int
from an `int` or `float64` item); elements of the unsupported element
kinds are left at the element type's zero value; and a non-sequence
source leaves the field untouched. -/
theorem C7_slice_decoding (a : AdderCfg) (env : Env) (k : ElemKind) (key : String) :
    (∀ (xs : List GoValue) (items : List Value),
      setSliceField k xs (.vSeq items) = (.gSlice k (items.map (convElem k)), none) ∧
      (items.map (convElem k)).length = items.length ∧
      ∀ (i : Nat) (h : i < items.length),
        (items.map (convElem k)).get ⟨i, by simpa using h⟩ = convElem k (items.get ⟨i, h⟩)) ∧
    (∀ s, convElem .eString (.vStr s) = (setFieldValue a env (.gString "") (.vStr s) key).1) ∧
    (∀ n, convElem .eInt (.vInt n) = (setFieldValue a env (.gInt 0) (.vInt n) key).1) ∧
    (∀ q, convElem .eInt (.vFloat q) = (setFieldValue a env (.gInt 0) (.vFloat q) key).1) ∧
    (∀ item, convElem .eUint item = zeroElem .eUint ∧ convElem .eBool item = zeroElem .eBool) ∧
    (∀ (xs : List GoValue) (v : Value), (∀ items, v ≠ .vSeq items) →
      setSliceField k xs v = (.gSlice k xs, none)) := by
  refine ⟨?_, ?_, ?_, ?_, ?_, ?_⟩
  · intro xs items
    refine ⟨by simp [setSliceField], by simp, ?_⟩
    intro i h
    simp
  · intro s
    rw [setFieldValue]
    simp [convElem]
  · intro n
    rw [setFieldValue]
    simp [convElem]
  · intro q
    rw [setFieldValue]
    simp [convElem]
  · intro item
    exact ⟨by simp [convElem, zeroElem], by simp [convElem, zeroElem]⟩
  · intro xs v hv
    cases v with
    | vSeq items => exact absurd rfl (hv items)
    | _ => simp [setSliceField]


/-- Witness for C7: the document sequence `["https://a", "https://b"]`
into a string-slice field preserves order and length; a non-sequence
source leaves the field untouched; a bool-slice target (an element
kind outside the conversion switch) is zero-filled. -/
theorem C7_slice_decoding_witness :
    (setSliceField .eString [] (.vSeq [.vStr "https://a", .vStr "https://b"]) =
      (.gSlice .eString [.gString "https://a", .gString "https://b"], none)) ∧
    (setSliceField .eString [.gString "old"] (.vStr "x") =
      (.gSlice .eString [.gString "old"], none)) ∧
    (setSliceField .eBool [] (.vSeq [.vStr "s", .vBool true]) =
      (.gSlice .eBool [.gBool false, .gBool false], none)) := by
  refine ⟨?_, ?_, ?_⟩
  · have h := ((C7_slice_decoding ⟨none, false, []⟩ [] .eString "k").1
      [] [.vStr "https://a", .vStr "https://b"]).1
    rw [h]
    simp [convElem]
  · exact (C7_slice_decoding ⟨none, false, []⟩ [] .eString "k").2.2.2.2.2
      [.gString "old"] (.vStr "x") (fun items h => Value.noConfusion h)
  · have h := ((C7_slice_decoding ⟨none, false, []⟩ [] .eBool "k").1
      [] [.vStr "s", .vBool true]).1
    rw [h]
    simp [convElem]

end AdderModel

namespace AdderModel

/-- C8: an invalid decode target is an ordinary error result.  A nil
pointer target and a non-pointer target return the non-nil-pointer
error, and a pointer to a non-struct value returns the
pointer-to-struct error; in each case the returned target is exactly
the input, so no field of any target is mutated, and the error is a
returned value, not a panic. -/
theorem C8_invalid_target_is_ordinary_error
    (a : AdderCfg) (env : Env) (data : List (String × Value)) (pre : String) :
    (unmarshalWithPath a env data .nilPtr pre = (.nilPtr, some .errNilOrNotPtr)) ∧
    (∀ g, unmarshalWithPath a env data (.nonPtr g) pre = (.nonPtr g, some .errNilOrNotPtr)) ∧
    (∀ g, isStructVal g = false →
      unmarshalWithPath a env data (.ptr g) pre = (.ptr g, some .errNotStruct)) := by
  refine ⟨rfl, fun g => rfl, ?_⟩
  intro g hg
  cases g with
  | gStruct fs => simp [isStructVal] at hg
  | _ => rfl

/-- Witness for C8: the three invalid-target shapes at concrete inputs
(nil pointer, a bare struct passed by value, a pointer to a string). -/
theorem C8_invalid_target_is_ordinary_error_witness :
    (unmarshalWithPath ⟨none, false, []⟩ [] [] .nilPtr "" =
      (.nilPtr, some .errNilOrNotPtr)) ∧
    (unmarshalWithPath ⟨none, false, []⟩ [] [] (.nonPtr (.gStruct [])) "" =
      (.nonPtr (.gStruct []), some .errNilOrNotPtr)) ∧
    (unmarshalWithPath ⟨none, false, []⟩ [] [] (.ptr (.gString "s")) "" =
      (.ptr (.gString "s"), some .errNotStruct)) := by
  have h := C8_invalid_target_is_ordinary_error ⟨none, false, []⟩ [] [] ""
  exact ⟨h.1, h.2.1 (.gStruct []), h.2.2 (.gString "s") (by simp [isStructVal])⟩

end AdderModel

namespace AdderModel

/-- C9: decoding is not transactional.  Whenever the field loop returns
an error, the field list splits as `l₁ ++ f :: l₂` where every field of
`l₁` was processed without error and keeps the value assigned to it
during this call, `f` is the failing field (whose per-field step
produced the returned error), and the fields of `l₂` after the failing
one are returned exactly as they were — no rollback of the earlier
mutations takes place. -/
theorem C9_no_rollback_on_failure
    (a : AdderCfg) (env : Env) (data : List (String × Value)) (pre : String) :
    ∀ (l l' : List (FieldInfo × GoValue)) (e : GoErr),
      unmarshalFields a env data pre l = (l', some e) →
      ∃ l₁ f l₂,
        l = l₁ ++ f :: l₂ ∧
        (∀ g ∈ l₁, (processField a env data pre g).2 = none) ∧
        (processField a env data pre f).2 = some e ∧
        l' = l₁.map (fun g => (processField a env data pre g).1) ++
             (processField a env data pre f).1 :: l₂ := by
  intro l
  induction l with
  | nil =>
    intro l' e h
    rw [unmarshalFields] at h
    simp at h
  | cons f fs ih =>
    intro l' e h
    rw [unmarshalFields] at h
    rcases hpf : (processField a env data pre f).2 with _ | e₀
    · rw [hpf] at h
      simp only at h
      rcases hrec : unmarshalFields a env data pre fs with ⟨fs', e'⟩
      rw [hrec] at h
      simp only [Prod.mk.injEq] at h
      obtain ⟨h1, h2⟩ := h
      subst h2
      obtain ⟨l₁, f₀, l₂, g1, g2, g3, g4⟩ := ih fs' e hrec
      refine ⟨f :: l₁, f₀, l₂, by rw [g1]; rfl, ?_, g3, ?_⟩
      · intro g hg
        rcases List.mem_cons.mp hg with hg | hg
        · rw [hg, hpf]
        · exact g2 g hg
      · rw [← h1, g4]
        simp
    · rw [hpf] at h
      simp only [Prod.mk.injEq, Option.some.injEq] at h
      obtain ⟨h1, h2⟩ := h
      subst h2
      exact ⟨[], f, fs, rfl, by simp, hpf, by simp [← h1]⟩


/-- Witness for C9: under automatic env with `B=bad` set, a three-field
struct decodes `A` from the document, fails on the uint field `B`, and
leaves `C` untouched; the split required by the theorem exists. -/
theorem C9_no_rollback_on_failure_witness :
    (unmarshalFields ⟨none, true, []⟩ [("B", "bad")]
        [("a", .vStr "va"), ("c", .vStr "vc")] ""
        [(⟨"A", "", true⟩, .gString ""), (⟨"B", "", true⟩, .gUint 0),
         (⟨"C", "", true⟩, .gString "c0")] =
      ([(⟨"A", "", true⟩, .gString "va"), (⟨"B", "", true⟩, .gUint 0),
        (⟨"C", "", true⟩, .gString "c0")], some (.numError "bad"))) ∧
    (∃ l₁ f l₂,
      ([(⟨"A", "", true⟩, .gString ""), (⟨"B", "", true⟩, .gUint 0),
        (⟨"C", "", true⟩, .gString "c0")] :
          List (FieldInfo × GoValue)) = l₁ ++ f :: l₂ ∧
      (∀ g ∈ l₁,
        (processField ⟨none, true, []⟩ [("B", "bad")]
          [("a", .vStr "va"), ("c", .vStr "vc")] "" g).2 = none) ∧
      (processField ⟨none, true, []⟩ [("B", "bad")]
        [("a", .vStr "va"), ("c", .vStr "vc")] "" f).2 = some (.numError "bad") ∧
      ([(⟨"A", "", true⟩, .gString "va"), (⟨"B", "", true⟩, .gUint 0),
        (⟨"C", "", true⟩, .gString "c0")] :
          List (FieldInfo × GoValue)) =
        l₁.map (fun g => (processField ⟨none, true, []⟩ [("B", "bad")]
          [("a", .vStr "va"), ("c", .vStr "vc")] "" g).1) ++
        (processField ⟨none, true, []⟩ [("B", "bad")]
          [("a", .vStr "va"), ("c", .vStr "vc")] "" f).1 :: l₂) := by
  have hcomp : unmarshalFields ⟨none, true, []⟩ [("B", "bad")]
      [("a", .vStr "va"), ("c", .vStr "vc")] ""
      [(⟨"A", "", true⟩, .gString ""), (⟨"B", "", true⟩, .gUint 0),
       (⟨"C", "", true⟩, .gString "c0")] =
      ([(⟨"A", "", true⟩, .gString "va"), (⟨"B", "", true⟩, .gUint 0),
        (⟨"C", "", true⟩, .gString "c0")], some (.numError "bad")) := by
    simp [unmarshalFields, processField, setFieldValue, setFieldFromString, getEnvValue,
      getenv, applyReplacer, stringsToLower, stringsToUpper, parseUintGo, digitsVal,
      List.lookup]
  exact ⟨hcomp, C9_no_rollback_on_failure ⟨none, true, []⟩ [("B", "bad")]
    [("a", .vStr "va"), ("c", .vStr "vc")] "" _ _ _ hcomp⟩

end AdderModel

namespace AdderModel

/-- C10: an explicit binding shadows the automatic mapping
unconditionally.  When the lowercased dotted path has an explicit
binding, the resolver returns the bound variable's environment value
for every replacer and every setting of the automatic-env flag — the
uppercase-plus-transform derivation is never consulted — even when
that value is empty; and in the empty case the per-field step falls
back to the document value for the field (or leaves it untouched when
the key is absent). -/
theorem C10_explicit_binding_shadows_automatic :
    (∀ (r : Option (String → String)) (auto : Bool) (binds : List (String × String))
       (env : Env) (key ev : String),
      binds.lookup (stringsToLower key) = some ev →
      getEnvValue ⟨r, auto, binds⟩ env key = getenv env ev) ∧
    (∀ (a : AdderCfg) (env : Env) (data : List (String × Value)) (pre : String)
       (info : FieldInfo) (fv : GoValue) (fieldName fullKey ev : String),
      info.canSet = true →
      fieldName = (if info.tag ≠ "" then info.tag else stringsToLower info.name) →
      fullKey = (if pre = "" then fieldName else pre ++ "." ++ fieldName) →
      a.envBindings.lookup (stringsToLower fullKey) = some ev →
      getenv env ev = "" →
      getEnvValue a env fullKey = "" ∧
      (∀ cv, data.lookup fieldName = some cv →
        processField a env data pre (info, fv) =
          ((info, (setFieldValue a env fv cv fullKey).1),
           (setFieldValue a env fv cv fullKey).2)) ∧
      (data.lookup fieldName = none →
        processField a env data pre (info, fv) = ((info, fv), none))) := by
  constructor
  · intro r auto binds env key ev hbind
    exact getEnvValue_bound ⟨r, auto, binds⟩ env key ev hbind
  · intro a env data pre info fv fieldName fullKey ev hset hfn hfk hbind hemp
    have hge : getEnvValue a env fullKey = "" := by
      rw [getEnvValue_bound a env fullKey ev hbind, hemp]
    have hpf := processField_unfold a env data pre info fv fieldName fullKey hset hfn hfk
    refine ⟨hge, ?_, ?_⟩
    · intro cv hcv
      rw [hpf, hge]
      simp [hcv]
    · intro hnone
      rw [hpf, hge]
      simp [hnone]

/-- Witness for C10: with the binding `db.url → UNSET_VAR`, the
resolver ignores the automatic candidate `DB_URL=from-auto` entirely
(whether automatic env is on or off, with or without the replacer) and
resolves to the empty environment value of `UNSET_VAR`; the per-field
step then uses the document value. -/
theorem C10_explicit_binding_shadows_automatic_witness :
    (getEnvValue ⟨some dotUnderscoreReplacer, true, [("db.url", "UNSET_VAR")]⟩
      [("DB_URL", "from-auto")] "db.url" = "") ∧
    (getEnvValue ⟨none, false, [("db.url", "UNSET_VAR")]⟩
      [("DB_URL", "from-auto")] "db.url" = "") ∧
    (processField ⟨some dotUnderscoreReplacer, true, [("db.url", "UNSET_VAR")]⟩
        [("DB_URL", "from-auto")] [("url", .vStr "postgres://from-config")] "db"
        (⟨"Url", "", true⟩, .gString "") =
      ((⟨"Url", "", true⟩, .gString "postgres://from-config"), none)) := by
  refine ⟨?_, ?_, ?_⟩
  · rw [(C10_explicit_binding_shadows_automatic).1 (some dotUnderscoreReplacer) true
      [("db.url", "UNSET_VAR")] [("DB_URL", "from-auto")] "db.url" "UNSET_VAR" (by decide)]
    decide
  · rw [(C10_explicit_binding_shadows_automatic).1 none false
      [("db.url", "UNSET_VAR")] [("DB_URL", "from-auto")] "db.url" "UNSET_VAR" (by decide)]
    decide
  · have h := ((C10_explicit_binding_shadows_automatic).2
      ⟨some dotUnderscoreReplacer, true, [("db.url", "UNSET_VAR")]⟩ [("DB_URL", "from-auto")]
      [("url", .vStr "postgres://from-config")] "db"
      ⟨"Url", "", true⟩ (.gString "") "url" "db.url" "UNSET_VAR"
      (by decide) (by decide) (by decide) (by decide) (by decide)).2.1
      (.vStr "postgres://from-config") (by rfl)
    rw [h, setFieldValue]

end AdderModel
